import Mathlib

/-!
Verification development for the two Python scripts of `ECF/bndtools.grpc`:

* `org.eclipse.ecf.bndtools.grpc.test/python/run_grpc_server.py` — a gRPC
  health-check servicer whose `Check` method builds a fresh response with
  status `SERVING` and message `"Hello request_message=" + request.request_message`.
* `org.eclipse.ecf.bndtools.grpc/src/main/java/org/eclipse/ecf/bndtools/grpc/grpc_protoc.py`
  — a wrapper that scans `sys.argv` for `-I`-prefixed items, adds the absolute
  form of each such path to `sys.path` via `add_to_python_path`, then calls
  `grpc_tools.protoc.main(sys.argv[1:])`.

The embedding is shallow: Python strings become `String` (reasoned about through
their character lists), the mutable `sys.path` list becomes explicit state
passing of a `List String`, and `os.path.abspath` is embedded from CPython's
`posixpath` implementation (`isabs`, `join`, `normpath`), parameterised by the
current working directory.
-/

/-- Modelled from the spec: the generated protobuf types of `health.proto`
(imported as `health.health_pb2`) are not among the given sources. The spec
describes a request/response pair "each holding a single scalar status/message
field" with a `SERVING` status value; a protobuf enum field defaults to its
zero value and a string field to the empty string. -/
inductive ServingStatus where
  | UNKNOWN
  | SERVING

/-- Modelled from the spec: the health-check request message, holding the
single string field `request_message`. -/
structure HealthCheckRequest where
  request_message : String

/-- Modelled from the spec: the health-check response message, holding a
status field and the single string field `response_message`. -/
structure HealthCheckResponse where
  status : ServingStatus
  response_message : String

/-- Modelled from the spec: `HealthCheckResponse()` constructs a message with
all fields at their protobuf defaults (zero-valued enum, empty string). -/
def HealthCheckResponse.default : HealthCheckResponse :=
  { status := ServingStatus.UNKNOWN, response_message := "" }

/-- Embeds `HealthCheckServicer.Check` from `run_grpc_server.py` lines 14-19.
The Python method receives `(self, request, target)`; it never touches `self`
or the context argument `target` and raises no exception, so it is embedded as
a pure function that threads the context state `target` through unchanged
(polymorphic in the context type `σ`, since the body never inspects it).
The body builds `HealthCheckResponse()`, sets `status` to `SERVING`, sets
`response_message` to `"Hello request_message=" + request.request_message`,
and returns the result. -/
def HealthCheckServicer.Check {σ : Type} (request : HealthCheckRequest) (target : σ) :
    HealthCheckResponse × σ :=
  let result := HealthCheckResponse.default
  let result := { result with status := ServingStatus.SERVING }
  let result :=
    { result with response_message := "Hello request_message=" ++ request.request_message }
  (result, target)

/-- Embeds Python `s.startswith(marker)`: the first `len(marker)` characters
of `s` equal `marker`. -/
def startswith (s marker : String) : Bool :=
  s.data.take marker.data.length = marker.data

/-- Embeds the Python slice `s[n:]`. -/
def sliceFrom (s : String) (n : Nat) : String :=
  String.mk (s.data.drop n)

/-- Embeds CPython `posixpath.isabs` on character lists: `s.startswith('/')`. -/
def isabsL (l : List Char) : Bool :=
  l.take 1 = ['/']

/-- Embeds the `initial_slashes` computation of CPython `posixpath.normpath`:
`path.startswith('/')` gives 1, upgraded to 2 exactly when the path starts
with `//` but not with `///` (POSIX allows two leading slashes). -/
def initialSlashes (l : List Char) : Nat :=
  if l.take 1 = ['/'] then
    if l.take 2 = ['/', '/'] ∧ ¬ l.take 3 = ['/', '/', '/'] then 2 else 1
  else 0

/-- Embeds Python `path.split('/')`: the list of `/`-separated components,
empty components included (so `"".split('/') == ['']`). -/
def splitSep : List Char → List (List Char)
  | [] => [[]]
  | c :: cs =>
    if c = '/' then [] :: splitSep cs
    else (c :: (splitSep cs).headD []) :: (splitSep cs).tail

/-- Embeds one iteration of the component loop of CPython `posixpath.normpath`:
empty and `.` components are skipped; a component is appended unless it is
`..` arriving with a non-empty, non-`..`-topped stack (or at the root), in
which case the last component is popped. `k` is `initial_slashes`. -/
def processComp (k : Nat) (acc : List (List Char)) (comp : List Char) : List (List Char) :=
  if comp = [] ∨ comp = ['.'] then acc
  else if ¬ comp = ['.', '.'] ∨ (k = 0 ∧ acc = []) ∨
      (¬ acc = [] ∧ acc.getLast? = some ['.', '.']) then
    acc ++ [comp]
  else if ¬ acc = [] then acc.dropLast
  else acc

/-- Embeds CPython `posixpath.normpath` on character lists: empty input gives
`.`; otherwise the components are filtered/collapsed by `processComp`, joined
with `/`, prefixed by the initial slashes, and an empty result gives `.`. -/
def normpathL (path : List Char) : List Char :=
  if path = [] then ['.']
  else
    let k := initialSlashes path
    let newComps := (splitSep path).foldl (processComp k) []
    let joined := List.intercalate ['/'] newComps
    let p := List.replicate k '/' ++ joined
    if p = [] then ['.'] else p

/-- Embeds CPython `posixpath.join(a, b)` for a single second argument: an
absolute `b` replaces `a`; otherwise `b` is appended, inserting `/` unless `a`
is empty or already ends with `/`. -/
def joinL (a b : List Char) : List Char :=
  if isabsL b then b
  else if a = [] ∨ a.getLast? = some '/' then a ++ b
  else a ++ '/' :: b

/-- Embeds CPython `posixpath.abspath` on character lists, with the current
working directory `cwd` (the result of `os.getcwd()`) passed explicitly: a
relative path is joined onto `cwd`, and the result is normalised. -/
def abspathL (cwd path : List Char) : List Char :=
  if isabsL path then normpathL path
  else normpathL (joinL cwd path)

/-- String-level `os.path.isabs`. -/
def isabs (s : String) : Bool :=
  isabsL s.data

/-- String-level `posixpath.normpath`. -/
def normpath (s : String) : String :=
  String.mk (normpathL s.data)

/-- String-level `os.path.abspath`, with the working directory explicit. -/
def abspath (cwd path : String) : String :=
  String.mk (abspathL cwd.data path.data)

/-- Embeds `add_to_python_path` from `grpc_protoc.py` lines 11-16. The mutable
`sys.path` becomes the explicit argument `sysPath` and the returned list is
the updated `sys.path`: the absolute form of `new_path` is appended when it is
not already an element. -/
def add_to_python_path (cwd : String) (sysPath : List String) (new_path : String) :
    List String :=
  let absolute_path := abspath cwd new_path
  if absolute_path ∈ sysPath then sysPath else sysPath ++ [absolute_path]

/-- Embeds the body of the `for item in sys.argv` loop of `grpc_protoc.py`
lines 28-30: an item starting with `-I` has its remainder `item[2:]` added to
the python path; any other item leaves `sys.path` alone. -/
def wrapperStep (cwd : String) (sysPath : List String) (item : String) : List String :=
  if startswith item "-I" then add_to_python_path cwd sysPath (sliceFrom item 2)
  else sysPath

/-- Embeds the whole `for item in sys.argv` loop: `wrapperStep` folded over
the full `sys.argv` (program name included, exactly as the source iterates). -/
def wrapperScan (cwd : String) (argv : List String) (sysPath : List String) : List String :=
  argv.foldl (wrapperStep cwd) sysPath

/-- Result of one run of the `__main__` block of `grpc_protoc.py`: the final
`sys.path`, the argument list handed to `grpc_tools.protoc.main`, that call's
return value, and the exit status of the wrapper process. -/
structure WrapperResult where
  sysPath : List String
  forwarded : List String
  compilerRet : Int
  exitStatus : Int

/-- Embeds the `__main__` block of `grpc_protoc.py` lines 28-33, with the
external compiler entry point `grpc_tools.protoc.main` abstracted as the
function `compiler` (it returns an exit code as an int). The script scans all
of `sys.argv`, then evaluates `protoc.main(sys.argv[1:])` as its final
top-level statement, discarding the returned value; the script body then
completes, and a CPython process whose top level runs to completion without
`sys.exit` terminates with exit status 0. -/
def wrapperMain (cwd : String) (compiler : List String → Int) (argv : List String)
    (sysPath : List String) : WrapperResult :=
  let sysPath2 := wrapperScan cwd argv sysPath
  let ret := compiler (argv.drop 1)
  { sysPath := sysPath2, forwarded := argv.drop 1, compilerRet := ret, exitStatus := 0 }

/-- C1: for every request message `M`, `Check` returns status `SERVING` and
message exactly `"Hello request_message=" ++ M`; in particular `"ping"` yields
`"Hello request_message=ping"`. -/
theorem C1_check_returns_serving_hello (M : String) (σ : Type) (t : σ) :
    (HealthCheckServicer.Check ⟨M⟩ t).1.status = ServingStatus.SERVING ∧
    (HealthCheckServicer.Check ⟨M⟩ t).1.response_message = "Hello request_message=" ++ M ∧
    (HealthCheckServicer.Check ⟨"ping"⟩ t).1.response_message = "Hello request_message=ping" :=
  ⟨rfl, rfl, rfl⟩

/-- C7: the health responder cannot fail and has no effect beyond the
response: `Check` is a total function (it is defined for every request), it
returns the context state unchanged, and its response does not depend on the
context at all. -/
theorem C7_check_total_no_side_effects (σ τ : Type) (req : HealthCheckRequest)
    (t : σ) (u : τ) :
    (HealthCheckServicer.Check req t).2 = t ∧
    (HealthCheckServicer.Check req t).1 = (HealthCheckServicer.Check req u).1 :=
  ⟨rfl, rfl⟩

/-- C5: the argument list forwarded to the compiler entry point is verbatim
`sys.argv[1:]`, whatever the arguments are; in particular the wrapper invoked
as `["wrapper.py", "-Ifoo/bar", "a.proto"]` forwards exactly
`["-Ifoo/bar", "a.proto"]`. -/
theorem C5_forwarded_args_verbatim (cwd : String) (compiler : List String → Int)
    (argv sysPath : List String) :
    (wrapperMain cwd compiler argv sysPath).forwarded = argv.drop 1 ∧
    (wrapperMain "/" (fun _ => 0) ["wrapper.py", "-Ifoo/bar", "a.proto"] []).forwarded =
      ["-Ifoo/bar", "a.proto"] :=
  ⟨rfl, rfl⟩

/-- C2 counterexample: with a compiler entry point that returns exit code 1,
the wrapper still terminates with exit status 0, because the script discards
the value of `protoc.main(sys.argv[1:])`; so the wrapper does not terminate
with the exit status produced by the delegated compiler call. -/
theorem C2_counterexample :
    (wrapperMain "/" (fun _ => 1) ["wrapper.py", "a.proto"] []).compilerRet = 1 ∧
    (wrapperMain "/" (fun _ => 1) ["wrapper.py", "a.proto"] []).exitStatus ≠
      (wrapperMain "/" (fun _ => 1) ["wrapper.py", "a.proto"] []).compilerRet := by
  decide

/-- C2 amended: the wrapper passes the original argument list minus the
program name, unmodified, to the compiler entry point, but the compiler's
returned exit code is discarded: whenever the compiler call returns normally,
the wrapper process terminates with exit status 0. -/
theorem C2_forwards_args_and_exits_zero (cwd : String) (compiler : List String → Int)
    (argv sysPath : List String) :
    (wrapperMain cwd compiler argv sysPath).forwarded = argv.drop 1 ∧
    (wrapperMain cwd compiler argv sysPath).exitStatus = 0 :=
  ⟨rfl, rfl⟩

/-- C9: `add_to_python_path` never removes, modifies, or reorders existing
entries: the prior list is always an initial segment of the result, and the
result is either exactly the prior list or the prior list with the absolute
form of the argument appended at the end. -/
theorem C9_add_frame (cwd : String) (sysPath : List String) (P : String) :
    (∃ t, add_to_python_path cwd sysPath P = sysPath ++ t) ∧
    (add_to_python_path cwd sysPath P = sysPath ∨
      add_to_python_path cwd sysPath P = sysPath ++ [abspath cwd P]) := by
  unfold add_to_python_path
  by_cases h : abspath cwd P ∈ sysPath
  · exact ⟨⟨[], by simp [h]⟩, Or.inl (by simp [h])⟩
  · exact ⟨⟨[abspath cwd P], by simp [h]⟩, Or.inr (by simp [h])⟩

theorem splitSep_ne_nil (l : List Char) : splitSep l ≠ [] := by
  cases l with
  | nil => simp [splitSep]
  | cons c cs =>
    simp only [splitSep]
    split <;> simp

theorem splitSep_append_slash (l : List Char) :
    splitSep (l ++ ['/']) = splitSep l ++ [[]] := by
  induction l with
  | nil => simp [splitSep]
  | cons c cs ih =>
    cases hcs : splitSep cs with
    | nil => exact absurd hcs (splitSep_ne_nil cs)
    | cons g gs =>
      simp only [List.cons_append, splitSep, hcs]
      by_cases hc : c = '/' <;> simp [hc] <;> rw [ih, hcs] <;> simp

theorem processComp_empty (k : Nat) (acc : List (List Char)) :
    processComp k acc [] = acc := by
  simp [processComp]

theorem foldl_processComp_trailing_empty (k : Nat) (cs acc : List (List Char)) :
    (cs ++ [[]]).foldl (processComp k) acc = cs.foldl (processComp k) acc := by
  rw [List.foldl_append]
  simp [processComp_empty]

theorem exists_of_isabsL (l : List Char) (h : isabsL l = true) : ∃ t, l = '/' :: t := by
  cases l with
  | nil => simp [isabsL] at h
  | cons c t =>
    refine ⟨t, ?_⟩
    simp [isabsL, List.take] at h
    rw [h]

theorem initialSlashes_append_slash (l : List Char) (h1 : isabsL l = true)
    (h2 : l.getLast? ≠ some '/') :
    initialSlashes (l ++ ['/']) = initialSlashes l := by
  obtain ⟨t, rfl⟩ := exists_of_isabsL l h1
  cases t with
  | nil => exact absurd rfl h2
  | cons b t2 =>
    by_cases hb : b = '/'
    · subst hb
      cases t2 with
      | nil => exact absurd rfl h2
      | cons d t3 =>
        by_cases hd : d = '/'
        · subst hd; simp [initialSlashes, List.take]
        · simp [initialSlashes, List.take, hd]
    · simp [initialSlashes, List.take, hb]

theorem normpathL_append_slash (l : List Char) (h1 : isabsL l = true)
    (h2 : l.getLast? ≠ some '/') :
    normpathL (l ++ ['/']) = normpathL l := by
  have hl : l ≠ [] := by
    intro he
    subst he
    simp [isabsL] at h1
  have hne : l ++ ['/'] ≠ [] := by simp
  simp only [normpathL, if_neg hl, if_neg hne,
    initialSlashes_append_slash l h1 h2, splitSep_append_slash,
    foldl_processComp_trailing_empty]

theorem abspathL_empty (cwd : List Char) (h1 : isabsL cwd = true) :
    abspathL cwd [] = normpathL cwd := by
  have hb : ¬ isabsL ([] : List Char) = true := by decide
  have hcwd : cwd ≠ [] := by
    intro he
    subst he
    simp [isabsL] at h1
  unfold abspathL
  rw [if_neg hb]
  unfold joinL
  rw [if_neg hb]
  by_cases hend : cwd.getLast? = some '/'
  · rw [if_pos (Or.inr hend)]
    simp
  · rw [if_neg (by simp [hcwd, hend])]
    exact normpathL_append_slash cwd h1 hend

theorem abspath_empty (cwd : String) (h1 : isabs cwd = true) (h2 : normpath cwd = cwd) :
    abspath cwd "" = cwd := by
  have hdata : ("" : String).data = [] := rfl
  unfold abspath
  rw [hdata, abspathL_empty cwd.data h1]
  exact h2

theorem initialSlashes_pos (l : List Char) (h : isabsL l = true) :
    1 ≤ initialSlashes l := by
  simp only [isabsL, decide_eq_true_eq] at h
  unfold initialSlashes
  rw [if_pos h]
  split <;> omega

theorem isabsL_normpathL (l : List Char) (h : 1 ≤ initialSlashes l) :
    isabsL (normpathL l) = true := by
  have hl : l ≠ [] := by
    intro he
    subst he
    simp [initialSlashes] at h
  simp only [normpathL, if_neg hl]
  cases hk : initialSlashes l with
  | zero => omega
  | succ n =>
    simp [List.replicate_succ, isabsL, List.take]

theorem isabsL_joinL (a b : List Char) (h : isabsL a = true) :
    isabsL (joinL a b) = true := by
  obtain ⟨t, rfl⟩ := exists_of_isabsL a h
  unfold joinL
  by_cases hb : isabsL b = true
  · rw [if_pos hb]
    exact hb
  · rw [if_neg hb]
    by_cases hae : ('/' :: t : List Char) = [] ∨ ('/' :: t : List Char).getLast? = some '/'
    · rw [if_pos hae]
      simp [isabsL, List.take]
    · rw [if_neg hae]
      simp [isabsL, List.take]

theorem isabs_abspath (cwd p : String) (h : isabs cwd = true) :
    isabs (abspath cwd p) = true := by
  show isabsL (abspathL cwd.data p.data) = true
  unfold abspathL
  by_cases hp : isabsL p.data = true
  · rw [if_pos hp]
    exact isabsL_normpathL _ (initialSlashes_pos _ hp)
  · rw [if_neg hp]
    exact isabsL_normpathL _ (initialSlashes_pos _ (isabsL_joinL _ _ h))

theorem add_mem (cwd : String) (sysPath : List String) (P : String)
    (h : abspath cwd P ∈ sysPath) : add_to_python_path cwd sysPath P = sysPath := by
  simp [add_to_python_path, h]

theorem add_not_mem (cwd : String) (sysPath : List String) (P : String)
    (h : abspath cwd P ∉ sysPath) :
    add_to_python_path cwd sysPath P = sysPath ++ [abspath cwd P] := by
  simp [add_to_python_path, h]

/-- C3 counterexample: over a search-path list that already holds two copies
of `/a` (the absolute form of `a` when the working directory is `/`), calling
`add_to_python_path` twice with `a` leaves two entries, not exactly one: the
function never deduplicates pre-existing entries. -/
theorem C3_counterexample :
    List.count (abspath "/" "a")
      (add_to_python_path "/" (add_to_python_path "/" ["/a", "/a"] "a") "a") ≠ 1 := by
  decide

/-- C3 amended: `add_to_python_path` is idempotent — the second call with the
same argument changes nothing — and whenever the starting list holds at most
one entry equal to the absolute form of `P` (in particular any list without
that entry), two calls leave exactly one such entry. -/
theorem C3_add_idempotent (cwd : String) (sysPath : List String) (P : String) :
    add_to_python_path cwd (add_to_python_path cwd sysPath P) P =
      add_to_python_path cwd sysPath P ∧
    (List.count (abspath cwd P) sysPath ≤ 1 →
      List.count (abspath cwd P)
        (add_to_python_path cwd (add_to_python_path cwd sysPath P) P) = 1) := by
  by_cases h : abspath cwd P ∈ sysPath
  · rw [add_mem _ _ _ h, add_mem _ _ _ h]
    exact ⟨rfl, fun hc => Nat.le_antisymm hc (List.count_pos_iff.mpr h)⟩
  · rw [add_not_mem _ _ _ h]
    have hmem : abspath cwd P ∈ sysPath ++ [abspath cwd P] :=
      List.mem_append_right _ (List.mem_singleton_self _)
    rw [add_mem _ _ _ hmem]
    refine ⟨rfl, fun hc => ?_⟩
    rw [List.count_append, List.count_eq_zero.mpr h]
    simp

theorem C3_witness :
    List.count (abspath "/" "a") ([] : List String) ≤ 1 ∧
    add_to_python_path "/" (add_to_python_path "/" [] "a") "a" =
      add_to_python_path "/" [] "a" ∧
    List.count (abspath "/" "a")
      (add_to_python_path "/" (add_to_python_path "/" [] "a") "a") = 1 :=
  ⟨by decide, (C3_add_idempotent "/" [] "a").1, (C3_add_idempotent "/" [] "a").2 (by decide)⟩

theorem wrapperScan_no_marker (cwd : String) :
    ∀ (argv sysPath : List String), (∀ a ∈ argv, startswith a "-I" = false) →
      wrapperScan cwd argv sysPath = sysPath := by
  intro argv
  induction argv with
  | nil => intro sysPath h; rfl
  | cons a rest ih =>
    intro sysPath h
    have ha : startswith a "-I" = false := h a (List.mem_cons_self a rest)
    have hstep : wrapperStep cwd sysPath a = sysPath := by simp [wrapperStep, ha]
    show List.foldl (wrapperStep cwd) sysPath (a :: rest) = sysPath
    rw [List.foldl_cons, hstep]
    exact ih sysPath (fun x hx => h x (List.mem_cons_of_mem a hx))

/-- C4: if no element of the argument list starts with `-I`, the wrapper
leaves the search-path list exactly as it was and forwards the arguments
after the program name unmodified to the compiler entry point. -/
theorem C4_no_marker_frame (cwd : String) (compiler : List String → Int)
    (argv sysPath : List String) (h : ∀ a ∈ argv, startswith a "-I" = false) :
    (wrapperMain cwd compiler argv sysPath).sysPath = sysPath ∧
    (wrapperMain cwd compiler argv sysPath).forwarded = argv.drop 1 :=
  ⟨wrapperScan_no_marker cwd argv sysPath h, rfl⟩

theorem C4_witness :
    (∀ a ∈ (["wrapper.py", "x.proto"] : List String), startswith a "-I" = false) ∧
    (wrapperMain "/" (fun _ => 0) ["wrapper.py", "x.proto"] ["/lib"]).sysPath = ["/lib"] ∧
    (wrapperMain "/" (fun _ => 0) ["wrapper.py", "x.proto"] ["/lib"]).forwarded =
      ["x.proto"] :=
  ⟨by decide,
    (C4_no_marker_frame "/" (fun _ => 0) ["wrapper.py", "x.proto"] ["/lib"] (by decide)).1,
    (C4_no_marker_frame "/" (fun _ => 0) ["wrapper.py", "x.proto"] ["/lib"] (by decide)).2⟩

/-- C6: when the absolute form of `P` is not yet present, `add_to_python_path`
appends exactly the absolute-path resolution of `P` (and, the working
directory being absolute, that appended entry is an absolute path — not `P`
itself when `P` is spelled differently). -/
theorem C6_appends_absolute_form (cwd : String) (sysPath : List String) (P : String)
    (h1 : isabs cwd = true) (h2 : abspath cwd P ∉ sysPath) :
    add_to_python_path cwd sysPath P = sysPath ++ [abspath cwd P] ∧
    isabs (abspath cwd P) = true :=
  ⟨add_not_mem _ _ _ h2, isabs_abspath cwd P h1⟩

theorem C6_witness :
    isabs "/c" = true ∧ abspath "/c" "foo/bar" ∉ ([] : List String) ∧
    (add_to_python_path "/c" [] "foo/bar" = [] ++ [abspath "/c" "foo/bar"] ∧
      isabs (abspath "/c" "foo/bar") = true) :=
  ⟨by decide, by decide, C6_appends_absolute_form "/c" [] "foo/bar" (by decide) (by decide)⟩

/-- C8: a bare `-I` argument makes the wrapper pass the empty string to
`add_to_python_path`; for a normalised absolute working directory (what
`os.getcwd()` returns), the empty string resolves to the working directory
itself, which is appended to the search-path list when not already present. -/
theorem C8_bare_marker_adds_cwd (cwd : String) (sysPath : List String)
    (h1 : isabs cwd = true) (h2 : normpath cwd = cwd) :
    wrapperStep cwd sysPath "-I" = add_to_python_path cwd sysPath "" ∧
    add_to_python_path cwd sysPath "" =
      (if cwd ∈ sysPath then sysPath else sysPath ++ [cwd]) := by
  constructor
  · have hsw : startswith "-I" "-I" = true := by decide
    have hsl : sliceFrom "-I" 2 = "" := by decide
    unfold wrapperStep
    rw [if_pos hsw, hsl]
  · unfold add_to_python_path
    rw [abspath_empty cwd h1 h2]

theorem C8_witness :
    isabs "/home/user" = true ∧ normpath "/home/user" = "/home/user" ∧
    (wrapperStep "/home/user" ["/opt"] "-I" =
        add_to_python_path "/home/user" ["/opt"] "" ∧
      add_to_python_path "/home/user" ["/opt"] "" =
        (if ("/home/user" : String) ∈ ["/opt"] then ["/opt"]
          else ["/opt"] ++ ["/home/user"])) :=
  ⟨by decide, by decide,
    C8_bare_marker_adds_cwd "/home/user" ["/opt"] (by decide) (by decide)⟩

/-- C10: the membership test of `add_to_python_path` compares only the
absolute form: if the list already holds the path under a different spelling
`P` but not its absolute form, the absolute form is appended anyway, leaving
both spellings (two entries for that directory) in the list. -/
theorem C10_membership_tests_absolute_form (cwd : String) (sysPath : List String)
    (P : String) (h1 : P ∈ sysPath) (h2 : abspath cwd P ∉ sysPath) :
    add_to_python_path cwd sysPath P = sysPath ++ [abspath cwd P] ∧
    P ∈ add_to_python_path cwd sysPath P ∧
    abspath cwd P ∈ add_to_python_path cwd sysPath P ∧
    P ≠ abspath cwd P := by
  have hne : P ≠ abspath cwd P := fun he => h2 (he ▸ h1)
  have hadd := add_not_mem cwd sysPath P h2
  refine ⟨hadd, ?_, ?_, hne⟩
  · rw [hadd]
    exact List.mem_append_left _ h1
  · rw [hadd]
    exact List.mem_append_right _ (List.mem_singleton_self _)

theorem C10_witness :
    ("foo" : String) ∈ (["foo"] : List String) ∧
    abspath "/c" "foo" ∉ (["foo"] : List String) ∧
    (add_to_python_path "/c" ["foo"] "foo" = ["foo"] ++ [abspath "/c" "foo"] ∧
      ("foo" : String) ∈ add_to_python_path "/c" ["foo"] "foo" ∧
      abspath "/c" "foo" ∈ add_to_python_path "/c" ["foo"] "foo" ∧
      ("foo" : String) ≠ abspath "/c" "foo") :=
  ⟨by decide, by decide,
    C10_membership_tests_absolute_form "/c" ["foo"] "foo" (by decide) (by decide)⟩
